import Mathlib

/-!
Shallow embedding of the movie recommendation engine in `commend.py`.

Data model:
* a rating row is `(userId, movie_id, rating)` with the rating value embedded as `ℚ`
  (the float values of the source are modelled exactly as rationals);
* a movie row is `(movie_id, movie_title)`;
* the similarity query performed by `get_recommendations` — the composite of
  `df_piv.index.get_loc` (which raises `KeyError` on an unknown id, modelled as
  `none`) followed by `rec_model.kneighbors` and the `1 - distance` conversion —
  is a numeric library call (scipy/sklearn), so it is modelled as an abstract
  function `idx : Nat → Option (List (Nat × ℚ))` returning the neighbour list
  (self entry first, as `kneighbors` returns the query row at distance 0 in
  front).  Every theorem about `get_recommendations` is parametric in `idx`.

Python/pandas behaviours embedded explicitly:
* a Python `dict` keeps insertion order: the accumulation map is an association
  list where updating an existing key keeps its position and a new key is
  appended at the end (`addScore`);
* Python `sorted(..., reverse=True)` is a stable descending sort (ties keep
  their original order), embedded as the stable insertion sort `insSort` with a
  descending comparator;
* pandas `sort_values(by=c, ascending=False)` computes an ascending argsort and
  then reverses the indexer (`nargsort` in pandas), embedded as the stable
  ascending `insSort` followed by `List.reverse`;
* pandas `groupby` sorts the group keys ascending (`groupKeys`);
* `pd.merge(df_ratings, df_movies, on='movie_id')` is an inner join: each
  rating row is replicated once per movie row with the same id (`df_merged`);
* `sklearn`'s `NearestNeighbors.fit` rejects an input with zero samples, so the
  module-level model build fails (the process never starts serving) when the
  merged table is empty; `buildEngine` returns `Except DataIntegrityError _`,
  with the error raised exactly in that case.
-/

namespace Commend

attribute [local semireducible] Rat.add Rat.mul Rat.inv

/-- Stable insertion of `a` into `l` under the Bool comparator `le`: `a` is
placed before the first element `b` with `le a b = true`. -/
def ordInsert (le : α → α → Bool) (a : α) : List α → List α
  | [] => [a]
  | b :: l => if le a b then a :: b :: l else b :: ordInsert le a l

/-- Stable insertion sort under the Bool comparator `le`.  Earlier elements of
the input are inserted in front of later elements that compare equal, so ties
keep their original relative order — the stability guarantee of Python
`sorted` and the behaviour of a stable ascending argsort. -/
def insSort (le : α → α → Bool) : List α → List α
  | [] => []
  | a :: l => ordInsert le a (insSort le l)

/-- Descending comparator on the score component, embedding the key
`lambda item: item[1]` with `reverse=True` of the Python `sorted` call. -/
def leD (p q : Nat × ℚ) : Bool := decide (q.2 ≤ p.2)

/-- Ascending comparator on the score component, embedding the ascending
argsort that pandas `sort_values` performs before reversing the indexer. -/
def leA (p q : Nat × ℚ) : Bool := decide (p.2 ≤ q.2)

/-- Ascending comparator on `Nat`, used for pandas' sorted group keys and for
the sort inside `Series.median`. -/
def leN (a b : Nat) : Bool := decide (a ≤ b)

/-- One `recommendations[rec_id] = recommendations.get(rec_id, 0) + rec_score`
step on the insertion-ordered association list modelling the Python dict:
an existing key is updated in place, a new key is appended at the end. -/
def addScore (m : List (Nat × ℚ)) (id : Nat) (s : ℚ) : List (Nat × ℚ) :=
  match m with
  | [] => [(id, s)]
  | p :: rest => if p.1 == id then (p.1, p.2 + s) :: rest else p :: addScore rest id s

/-- Accumulate one seed's neighbour list (already with the self entry dropped)
into the score map, left to right. -/
def accumSeed (m : List (Nat × ℚ)) (neighbors : List (Nat × ℚ)) : List (Nat × ℚ) :=
  neighbors.foldl (fun acc p => addScore acc p.1 p.2) m

/-- The accumulation loop of `get_recommendations`, starting from the score
map `m`: for each seed, look it up in the similarity index; on `KeyError`
(`none`) skip the seed (`continue`); otherwise drop entry 0 (the seed's own
row, `range(1, len(...))`) and accumulate the neighbour scores. -/
def accumFrom (idx : Nat → Option (List (Nat × ℚ))) (m : List (Nat × ℚ))
    (seeds : List Nat) : List (Nat × ℚ) :=
  seeds.foldl
    (fun acc s =>
      match idx s with
      | none => acc
      | some l => accumSeed acc (l.drop 1)) m

/-- The accumulation loop of `get_recommendations`, starting (as in the
source) from the empty dict `recommendations = {}`. -/
def accumulate (idx : Nat → Option (List (Nat × ℚ))) (seeds : List Nat) :
    List (Nat × ℚ) :=
  accumFrom idx [] seeds

/-- `recommendations.get(x, 0)`: the accumulated score of movie `x`, read off
the insertion-ordered association list. -/
def scoreOf (m : List (Nat × ℚ)) (x : Nat) : ℚ :=
  ((m.find? (fun p => p.1 == x)).map (fun p => p.2)).getD 0

/-- The total similarity contributed to movie `x` by one neighbour list. -/
def sumScores (l : List (Nat × ℚ)) (x : Nat) : ℚ :=
  ((l.filter (fun p => p.1 == x)).map (fun p => p.2)).sum

/-- The selection loop of `get_recommendations`: walk the sorted score list,
append ids not in the seed list, and break as soon as 5 are collected. -/
def selectRecs (seeds : List Nat) : List (Nat × ℚ) → List Nat → List Nat
  | [], acc => acc
  | p :: rest, acc =>
    if seeds.contains p.1 then
      if 5 ≤ acc.length then acc else selectRecs seeds rest acc
    else
      if 5 ≤ (acc ++ [p.1]).length then acc ++ [p.1]
      else selectRecs seeds rest (acc ++ [p.1])

/-- The `final_recs` list of `get_recommendations`: accumulated scores, sorted
by total score descending (stable), then the seed-excluding 5-capped walk. -/
def final_recs (idx : Nat → Option (List (Nat × ℚ))) (movie_ids : List Nat) :
    List Nat :=
  selectRecs movie_ids (insSort leD (accumulate idx movie_ids)) []

/-- Title resolution: `df_movies[df_movies['movie_id'] == movie_id]['movie_title']`
keeps the first matching row and silently skips ids with no catalog row. -/
def resolveTitles (movies : List (Nat × String)) (ids : List Nat) : List String :=
  ids.filterMap (fun id => (movies.find? (fun m => m.1 == id)).map (fun m => m.2))

/-- `get_recommendations(movie_ids)` of `commend.py`, parametric in the
similarity index `idx` and the movie catalog `movies`. -/
def get_recommendations (idx : Nat → Option (List (Nat × ℚ)))
    (movies : List (Nat × String)) (movie_ids : List Nat) : List String :=
  resolveTitles movies (final_recs idx movie_ids)

/-- The inner join `pd.merge(df_ratings, df_movies, on='movie_id')`: each
rating row `(userId, movie_id, rating)` is kept once per movie row with the
same `movie_id`. -/
def df_merged (ratings : List (Nat × Nat × ℚ)) (movies : List (Nat × String)) :
    List (Nat × Nat × ℚ) :=
  ratings.foldr
    (fun r acc => ((movies.filter (fun m => m.1 == r.2.1)).map (fun _ => r)) ++ acc) []

/-- The startup failure mode of the engine build (spec §7): the merged table is
empty, `NearestNeighbors.fit` rejects a 0-sample input, and the process never
starts serving. -/
inductive DataIntegrityError
  | emptyMergedData
deriving DecidableEq

/-- The module-level engine build: merge ratings with movies; if the join
eliminated every row the `fit` call fails at startup (modelled as
`Except.error`), otherwise the merged table is the engine's data. -/
def buildEngine (ratings : List (Nat × Nat × ℚ)) (movies : List (Nat × String)) :
    Except DataIntegrityError (List (Nat × Nat × ℚ)) :=
  match df_merged ratings movies with
  | [] => Except.error DataIntegrityError.emptyMergedData
  | r :: rest => Except.ok (r :: rest)

/-- The distinct `movie_id` group keys of the merged table in ascending order,
as pandas `groupby('movie_id')` (which sorts its keys) produces them. -/
def groupKeys (merged : List (Nat × Nat × ℚ)) : List Nat :=
  insSort leN (merged.map (fun r => r.2.1)).dedup

/-- Per-movie rating count: `df_merged.groupby('movie_id')['rating'].count()`. -/
def countOf (merged : List (Nat × Nat × ℚ)) (id : Nat) : Nat :=
  (merged.filter (fun r => r.2.1 == id)).length

/-- Per-movie mean rating: `df_merged.groupby('movie_id')['rating'].mean()`. -/
def meanOf (merged : List (Nat × Nat × ℚ)) (id : Nat) : ℚ :=
  ((merged.filter (fun r => r.2.1 == id)).map (fun r => r.2.2)).sum / (countOf merged id : ℚ)

/-- The `df_count_rating['rating']` column in group-key order. -/
def countsList (merged : List (Nat × Nat × ℚ)) : List Nat :=
  (groupKeys merged).map (countOf merged)

/-- pandas `Series.median` on a list of counts: sort ascending, take the middle
element for odd length and the average of the two middle elements for even
length, as a rational. -/
def medianQ (l : List Nat) : ℚ :=
  let s := insSort leN l
  if s.length % 2 = 1 then (s.getD (s.length / 2) 0 : ℚ)
  else ((s.getD (s.length / 2 - 1) 0 : ℚ) + (s.getD (s.length / 2) 0 : ℚ)) / 2

/-- `popular_movies`: the group keys whose rating count is at least the median
of all per-movie counts. -/
def popular (merged : List (Nat × Nat × ℚ)) : List Nat :=
  (groupKeys merged).filter
    (fun id => decide (medianQ (countsList merged) ≤ (countOf merged id : ℚ)))

/-- The filtered `df_mean_rating` frame: one `(movie_id, mean rating)` row per
retained id, still in ascending `movie_id` order (`groupby` key order, which
`isin` filtering preserves). -/
def rankedMeans (merged : List (Nat × Nat × ℚ)) : List (Nat × ℚ) :=
  (popular merged).map (fun id => (id, meanOf merged id))

/-- `df_mean_rating.sort_values(by='rating', ascending=False)`: pandas computes
an ascending argsort of the column and reverses the resulting indexer. -/
def sortedRanked (merged : List (Nat × Nat × ℚ)) : List (Nat × ℚ) :=
  (insSort leA (rankedMeans merged)).reverse

/-- `top_5_ids` of `get_top_rated_movies`: head(5) of the sorted frame. -/
def top_5_ids (merged : List (Nat × Nat × ℚ)) : List Nat :=
  ((sortedRanked merged).take 5).map (fun p => p.1)

/-- `get_top_rated_movies()` of `commend.py`, parametric in the module data. -/
def get_top_rated_movies (ratings : List (Nat × Nat × ℚ))
    (movies : List (Nat × String)) : List String :=
  resolveTitles movies (top_5_ids (df_merged ratings movies))

/-- Comparator following the words of the spec rather than the source: sort by
score descending and break ties between equal scores by movie_id ascending
(a strict lexicographic order, so the sorted list is unique). -/
def leSpecD (p q : Nat × ℚ) : Bool :=
  decide (q.2 < p.2 ∨ (p.2 = q.2 ∧ p.1 ≤ q.1))

/-- The top-5 id list as the spec describes it: mean rating descending with
ties broken by movie_id ascending, over the same retained rows. -/
def top_5_ids_spec (merged : List (Nat × Nat × ℚ)) : List Nat :=
  ((insSort leSpecD (rankedMeans merged)).take 5).map (fun p => p.1)

/-- Concrete similarity index for the C1 witness: seed 1 is known, with
neighbours 7 and 3 at similarity 1/2 each. -/
def idxC1 : Nat → Option (List (Nat × ℚ)) :=
  fun n => if n = 1 then some [(1, 1), (7, (1:ℚ)/2), (3, (1:ℚ)/2)] else none

/-- Concrete similarity index for the C7 counterexample: neighbour 7 is
accumulated before neighbour 3, both with total score 1/2. -/
def idxC7 : Nat → Option (List (Nat × ℚ)) :=
  fun n => if n = 1 then some [(1, 1), (7, (1:ℚ)/2), (3, (1:ℚ)/2)] else none

/-- Concrete similarity index for the C8 witness: seed 2 is known and lists
movie 9 as a neighbour with similarity 1/2; seed 1 is unknown. -/
def idxC8 : Nat → Option (List (Nat × ℚ)) :=
  fun n => if n = 2 then some [(2, 1), (9, (1:ℚ)/2)] else none

/-- The neighbour list `idxC8` returns for seed 2. -/
def lBC8 : List (Nat × ℚ) := [(2, 1), (9, (1:ℚ)/2)]

/-- Concrete similarity index for the C9 witness. -/
def idxC9 : Nat → Option (List (Nat × ℚ)) :=
  fun n => if n = 1 then some [(1, 1), (7, (1:ℚ)/2)] else none

/-- Concrete movie catalog for the C9 witness. -/
def mC9 : List (Nat × String) := [(1, "A"), (7, "G")]

/-- Concrete ratings for the C5 witness: movies 1 and 2 rated once each. -/
def rC5 : List (Nat × Nat × ℚ) := [(1, 1, 3), (1, 2, 4)]

/-- Concrete movie catalog for the C5 witness. -/
def mC5 : List (Nat × String) := [(1, "A"), (2, "B")]

/-- Concrete ratings for the C6 counterexample: movies 1 and 2 both have one
rating of value 3, so their mean ratings tie. -/
def rC6 : List (Nat × Nat × ℚ) := [(1, 1, 3), (1, 2, 3)]

/-- Concrete movie catalog for the C6 counterexample. -/
def mC6 : List (Nat × String) := [(1, "A"), (2, "B")]

theorem mem_ordInsert (le : α → α → Bool) (a x : α) :
    ∀ l : List α, x ∈ ordInsert le a l ↔ x = a ∨ x ∈ l
  | [] => by simp [ordInsert]
  | b :: l => by
    cases hab : le a b
    · simp only [ordInsert, hab, Bool.false_eq_true, if_false, List.mem_cons,
        mem_ordInsert le a x l]
      tauto
    · simp only [ordInsert, hab, if_true, List.mem_cons]

theorem perm_ordInsert (le : α → α → Bool) (a : α) :
    ∀ l : List α, List.Perm (ordInsert le a l) (a :: l)
  | [] => List.Perm.refl _
  | b :: l => by
    cases hab : le a b
    · simpa [ordInsert, hab] using
        ((perm_ordInsert le a l).cons b).trans (List.Perm.swap a b l)
    · simp [ordInsert, hab]

theorem perm_insSort (le : α → α → Bool) :
    ∀ l : List α, List.Perm (insSort le l) l
  | [] => List.Perm.refl _
  | a :: l => (perm_ordInsert le a (insSort le l)).trans ((perm_insSort le l).cons a)

theorem pairwise_ordInsert (le : α → α → Bool)
    (htot : ∀ a b, le a b = false → le b a = true)
    (htrans : ∀ a b c, le a b = true → le b c = true → le a c = true) (a : α) :
    ∀ l : List α, l.Pairwise (fun x y => le x y = true) →
      (ordInsert le a l).Pairwise (fun x y => le x y = true)
  | [], _ => by simp [ordInsert]
  | b :: l, h => by
    rcases List.pairwise_cons.mp h with ⟨hb, htail⟩
    cases hab : le a b
    · simp only [ordInsert, hab, Bool.false_eq_true, if_false]
      refine List.pairwise_cons.mpr ⟨?_, pairwise_ordInsert le htot htrans a l htail⟩
      intro x hx
      rcases (mem_ordInsert le a x l).mp hx with hxa | hxl
      · rw [hxa]; exact htot a b hab
      · exact hb x hxl
    · simp only [ordInsert, hab, if_true]
      refine List.pairwise_cons.mpr ⟨?_, h⟩
      intro x hx
      rcases List.mem_cons.mp hx with hxb | hxl
      · rw [hxb]; exact hab
      · exact htrans a b x hab (hb x hxl)

theorem pairwise_insSort (le : α → α → Bool)
    (htot : ∀ a b, le a b = false → le b a = true)
    (htrans : ∀ a b c, le a b = true → le b c = true → le a c = true) :
    ∀ l : List α, (insSort le l).Pairwise (fun x y => le x y = true)
  | [] => List.Pairwise.nil
  | a :: l =>
    pairwise_ordInsert le htot htrans a (insSort le l)
      (pairwise_insSort le htot htrans l)

theorem filter_ordInsert (le : α → α → Bool) (p : α → Bool) (a : α)
    (h1 : p a = true → ∀ b, p b = true → le a b = true) :
    ∀ l : List α, (ordInsert le a l).filter p =
      if p a then a :: l.filter p else l.filter p
  | [] => by cases hpa : p a <;> simp [ordInsert, hpa]
  | b :: l => by
    cases hab : le a b
    · cases hpa : p a
      · cases hpb : p b <;>
          simp [ordInsert, hab, hpa, hpb, filter_ordInsert le p a h1 l]
      · have hpb : p b = false := by
          cases hpb : p b
          · rfl
          · rw [h1 hpa b hpb] at hab
            exact absurd hab (by simp)
        simp [ordInsert, hab, hpa, hpb, filter_ordInsert le p a h1 l]
    · cases hpa : p a <;> cases hpb : p b <;> simp [ordInsert, hab, hpa, hpb]

theorem filter_insSort (le : α → α → Bool) (p : α → Bool)
    (h : ∀ a b, p a = true → p b = true → le a b = true) :
    ∀ l : List α, (insSort le l).filter p = l.filter p
  | [] => rfl
  | a :: l => by
    have := filter_ordInsert le p a (fun hpa b hpb => h a b hpa hpb) (insSort le l)
    cases hpa : p a <;>
      simp [insSort, this, hpa, filter_insSort le p h l]

theorem selectRecs_avoids_seeds (seeds : List Nat) :
    ∀ (l : List (Nat × ℚ)) (acc : List Nat),
      (∀ x ∈ acc, seeds.contains x = false) →
      ∀ x ∈ selectRecs seeds l acc, seeds.contains x = false
  | [], _, hacc => hacc
  | p :: rest, acc, hacc => by
    simp only [selectRecs]
    cases hc : seeds.contains p.1
    · have hacc2 : ∀ x ∈ acc ++ [p.1], seeds.contains x = false := by
        intro x hx
        rcases List.mem_append.mp hx with hx | hx
        · exact hacc x hx
        · simp only [List.mem_singleton] at hx
          rw [hx]; exact hc
      rw [if_neg (by simp [hc])]
      by_cases hlen : 5 ≤ (acc ++ [p.1]).length
      · rw [if_pos hlen]; exact hacc2
      · rw [if_neg hlen]
        exact selectRecs_avoids_seeds seeds rest (acc ++ [p.1]) hacc2
    · rw [if_pos (by simp [hc])]
      by_cases hlen : 5 ≤ acc.length
      · rw [if_pos hlen]; exact hacc
      · rw [if_neg hlen]
        exact selectRecs_avoids_seeds seeds rest acc hacc

theorem selectRecs_length_le (seeds : List Nat) :
    ∀ (l : List (Nat × ℚ)) (acc : List Nat), acc.length ≤ 4 →
      (selectRecs seeds l acc).length ≤ 5
  | [], _, h => Nat.le_trans h (by omega)
  | p :: rest, acc, h => by
    simp only [selectRecs]
    cases hc : seeds.contains p.1
    · rw [if_neg (by simp [hc])]
      by_cases hlen : 5 ≤ (acc ++ [p.1]).length
      · rw [if_pos hlen]
        simp only [List.length_append, List.length_singleton]
        omega
      · rw [if_neg hlen]
        exact selectRecs_length_le seeds rest (acc ++ [p.1]) (by omega)
    · rw [if_pos (by simp [hc])]
      by_cases hlen : 5 ≤ acc.length
      · rw [if_pos hlen]; omega
      · rw [if_neg hlen]
        exact selectRecs_length_le seeds rest acc h

theorem scoreOf_nil (x : Nat) : scoreOf [] x = 0 := rfl

theorem scoreOf_cons (p : Nat × ℚ) (m : List (Nat × ℚ)) (x : Nat) :
    scoreOf (p :: m) x = if p.1 = x then p.2 else scoreOf m x := by
  by_cases h : p.1 = x <;> simp [scoreOf, List.find?_cons, h]

theorem sumScores_nil (x : Nat) : sumScores [] x = 0 := rfl

theorem sumScores_cons (p : Nat × ℚ) (l : List (Nat × ℚ)) (x : Nat) :
    sumScores (p :: l) x = (if p.1 = x then p.2 else 0) + sumScores l x := by
  by_cases h : p.1 = x <;> simp [sumScores, h]

theorem scoreOf_addScore (id : Nat) (s : ℚ) (x : Nat) :
    ∀ m : List (Nat × ℚ),
      scoreOf (addScore m id s) x = scoreOf m x + if id = x then s else 0
  | [] => by
    by_cases hix : id = x <;> simp [addScore, scoreOf_cons, scoreOf_nil, hix]
  | p :: rest => by
    by_cases hpi : p.1 = id
    · by_cases hix : id = x
      · simp [addScore, hpi, scoreOf_cons, hpi.trans hix, hix]
      · have hpx : ¬ p.1 = x := fun h => hix (hpi ▸ h)
        simp [addScore, hpi, scoreOf_cons, hpx, hix]
    · by_cases hpx : p.1 = x
      · have hix : ¬ id = x := fun h => hpi (hpx ▸ h.symm ▸ rfl)
        have hxi : ¬ x = id := fun h => hix h.symm
        simp [addScore, hpi, scoreOf_cons, hpx, hix, hxi]
      · simp [addScore, hpi, scoreOf_cons, hpx, scoreOf_addScore id s x rest]

theorem scoreOf_accumSeed (x : Nat) :
    ∀ (l : List (Nat × ℚ)) (m : List (Nat × ℚ)),
      scoreOf (accumSeed m l) x = scoreOf m x + sumScores l x
  | [], m => by simp [accumSeed, sumScores_nil]
  | p :: l, m => by
    have hstep : accumSeed m (p :: l) = accumSeed (addScore m p.1 p.2) l := rfl
    rw [hstep, scoreOf_accumSeed x l (addScore m p.1 p.2), scoreOf_addScore,
      sumScores_cons, add_assoc]

theorem accumFrom_filter_known (idx : Nat → Option (List (Nat × ℚ))) :
    ∀ (seeds : List Nat) (m : List (Nat × ℚ)),
      accumFrom idx m seeds =
        accumFrom idx m (seeds.filter (fun s => (idx s).isSome))
  | [], _ => rfl
  | s :: seeds, m => by
    cases hs : idx s with
    | none =>
      have h1 : accumFrom idx m (s :: seeds) = accumFrom idx m seeds := by
        simp [accumFrom, hs]
      rw [h1, List.filter_cons]
      simp only [hs, Option.isSome_none, Bool.false_eq_true, if_false]
      exact accumFrom_filter_known idx seeds m
    | some l =>
      have h1 : accumFrom idx m (s :: seeds) =
          accumFrom idx (accumSeed m (l.drop 1)) seeds := by
        simp [accumFrom, hs]
      rw [h1, List.filter_cons]
      simp only [hs, Option.isSome_some, if_true]
      have h2 : accumFrom idx m (s :: seeds.filter (fun s => (idx s).isSome)) =
          accumFrom idx (accumSeed m (l.drop 1))
            (seeds.filter (fun s => (idx s).isSome)) := by
        simp [accumFrom, hs]
      rw [h2]
      exact accumFrom_filter_known idx seeds (accumSeed m (l.drop 1))

theorem length_resolveTitles (movies : List (Nat × String)) (ids : List Nat) :
    (resolveTitles movies ids).length ≤ ids.length :=
  List.length_filterMap_le _ _

theorem mem_resolveTitles (movies : List (Nat × String)) (ids : List Nat)
    (t : String) (h : t ∈ resolveTitles movies ids) : ∃ id, (id, t) ∈ movies := by
  rcases List.mem_filterMap.mp h with ⟨id, _, hfind⟩
  rcases Option.map_eq_some'.mp hfind with ⟨m, hm, hmt⟩
  refine ⟨m.1, ?_⟩
  have hmem : m ∈ movies := List.mem_of_find?_eq_some hm
  have : (m.1, t) = m := by
    rw [← hmt]
  rw [this]
  exact hmem

theorem leN_total (a b : Nat) (h : leN a b = false) : leN b a = true := by
  simp only [leN, decide_eq_false_iff_not, decide_eq_true_eq] at *
  omega

theorem leN_trans (a b c : Nat) (h1 : leN a b = true) (h2 : leN b c = true) :
    leN a c = true := by
  simp only [leN, decide_eq_true_eq] at *
  omega

theorem leA_total (p q : Nat × ℚ) (h : leA p q = false) : leA q p = true := by
  simp only [leA, decide_eq_false_iff_not, decide_eq_true_eq, not_le] at *
  exact le_of_lt h

theorem leA_trans (p q r : Nat × ℚ) (h1 : leA p q = true) (h2 : leA q r = true) :
    leA p r = true := by
  simp only [leA, decide_eq_true_eq] at *
  exact le_trans h1 h2

theorem leD_total (p q : Nat × ℚ) (h : leD p q = false) : leD q p = true := by
  simp only [leD, decide_eq_false_iff_not, decide_eq_true_eq, not_le] at *
  exact le_of_lt h

theorem leD_trans (p q r : Nat × ℚ) (h1 : leD p q = true) (h2 : leD q r = true) :
    leD p r = true := by
  simp only [leD, decide_eq_true_eq] at *
  exact le_trans h2 h1

theorem groupKeys_pairwise_lt (merged : List (Nat × Nat × ℚ)) :
    (groupKeys merged).Pairwise (fun a b => a < b) := by
  have hle : (groupKeys merged).Pairwise (fun a b : Nat => leN a b = true) :=
    pairwise_insSort leN leN_total leN_trans _
  have hnd : (groupKeys merged).Nodup :=
    ((perm_insSort leN _).nodup_iff).mpr (List.nodup_dedup _)
  refine (hle.and hnd).imp ?_
  intro a b hab
  have h1 : a ≤ b := by
    have := hab.1
    simpa [leN] using this
  exact lt_of_le_of_ne h1 hab.2

theorem rankedMeans_pairwise_lt (merged : List (Nat × Nat × ℚ)) :
    (rankedMeans merged).Pairwise (fun p q => p.1 < q.1) := by
  rw [rankedMeans, List.pairwise_map]
  exact ((groupKeys_pairwise_lt merged).sublist (List.filter_sublist _))

theorem mem_rankedMeans_count (merged : List (Nat × Nat × ℚ)) (p : Nat × ℚ)
    (h : p ∈ rankedMeans merged) :
    medianQ (countsList merged) ≤ (countOf merged p.1 : ℚ) := by
  rcases List.mem_map.mp h with ⟨id, hid, hp⟩
  have hfil := (List.mem_filter.mp hid).2
  rw [← hp]
  exact of_decide_eq_true hfil

/-- Claim C1: no movie id from the seed set `movie_ids` ever appears in the
`final_recs` id list that `get_recommendations` resolves to titles and
returns — the selection loop skips every id contained in the seed list. -/
theorem recommendations_exclude_seeds (idx : Nat → Option (List (Nat × ℚ)))
    (seeds : List Nat) : ∀ id ∈ final_recs idx seeds, id ∉ seeds := by
  intro id hid
  have h :=
    selectRecs_avoids_seeds seeds (insSort leD (accumulate idx seeds)) []
      (by intro x hx; cases hx) id hid
  simpa using h

/-- Witness for C1 at a concrete index: movie 7 is recommended for seed set
`[1]` and is not a seed. -/
theorem recommendations_exclude_seeds_witness :
    7 ∈ final_recs idxC1 [1] ∧ 7 ∉ [1] :=
  ⟨by decide, recommendations_exclude_seeds idxC1 [1] 7 (by decide)⟩

/-- Claim C2: both `get_recommendations` (which breaks its selection loop at 5
ids and can only lose entries during title resolution) and
`get_top_rated_movies` (which takes `head(5)`) return at most 5 entries. -/
theorem results_capped_at_five (idx : Nat → Option (List (Nat × ℚ)))
    (ratings : List (Nat × Nat × ℚ)) (movies : List (Nat × String))
    (seeds : List Nat) :
    (get_recommendations idx movies seeds).length ≤ 5 ∧
      (get_top_rated_movies ratings movies).length ≤ 5 := by
  constructor
  · exact le_trans (length_resolveTitles _ _)
      (selectRecs_length_le _ _ _ (by simp))
  · have h5 : (top_5_ids (df_merged ratings movies)).length ≤ 5 := by
      simp only [top_5_ids, List.length_map, List.length_take]
      exact Nat.min_le_left _ _
    exact le_trans (length_resolveTitles _ _) h5

/-- Claim C3: a seed unknown to the similarity index contributes nothing (the
accumulated map equals the one computed from the known seeds only, because
the `KeyError` handler just continues), and when every seed is unknown
`get_recommendations` returns the empty list instead of raising. -/
theorem unknown_seeds_skipped (idx : Nat → Option (List (Nat × ℚ)))
    (movies : List (Nat × String)) (seeds : List Nat) :
    accumulate idx seeds =
      accumulate idx (seeds.filter (fun s => (idx s).isSome)) ∧
    ((∀ s ∈ seeds, idx s = none) →
      get_recommendations idx movies seeds = []) := by
  constructor
  · exact accumFrom_filter_known idx seeds []
  · intro hall
    have hfil : seeds.filter (fun s => (idx s).isSome) = [] := by
      rw [List.filter_eq_nil_iff]
      intro s hs
      simp [hall s hs]
    have hacc : accumulate idx seeds = [] := by
      rw [accumulate, accumFrom_filter_known idx seeds [], hfil]
      rfl
    rw [get_recommendations, final_recs, hacc]
    rfl

/-- Witness for C3 at a concrete index that knows no id: the request for the
unknown seed 9 yields the empty list. -/
theorem unknown_seeds_skipped_witness :
    (∀ s ∈ [(9 : Nat)],
        (fun _ : Nat => (none : Option (List (Nat × ℚ)))) s = none) ∧
    get_recommendations (fun _ => none) [] [9] = [] :=
  ⟨by simp, (unknown_seeds_skipped (fun _ => none) [] [9]).2 (by simp)⟩

/-- Claim C4: when no rating references any movie of the catalog, the inner
join is empty and the engine build fails with the startup
`DataIntegrityError` instead of producing a serving engine. -/
theorem empty_join_fails_build (ratings : List (Nat × Nat × ℚ))
    (movies : List (Nat × String))
    (h : ∀ r ∈ ratings, ∀ m ∈ movies, r.2.1 ≠ m.1) :
    buildEngine ratings movies =
      Except.error DataIntegrityError.emptyMergedData := by
  have hmer : df_merged ratings movies = [] := by
    induction ratings with
    | nil => rfl
    | cons r rs ih =>
      have hr : movies.filter (fun m => m.1 == r.2.1) = [] := by
        rw [List.filter_eq_nil_iff]
        intro m hm
        simp only [beq_iff_eq]
        exact fun he => (h r (List.mem_cons_self r rs) m hm) he.symm
      have hstep : df_merged (r :: rs) movies =
          (movies.filter (fun m => m.1 == r.2.1)).map (fun _ => r) ++
            df_merged rs movies := rfl
      rw [hstep, hr]
      simpa using ih (fun r' hr' => h r' (List.mem_cons_of_mem _ hr'))
  simp [buildEngine, hmer]

/-- Witness for C4 at concrete data: one rating for movie 10 against a catalog
containing only movie 1 makes the build fail. -/
theorem empty_join_fails_build_witness :
    (∀ r ∈ [((1 : Nat), (10 : Nat), (3 : ℚ))],
        ∀ m ∈ [((1 : Nat), "A")], r.2.1 ≠ m.1) ∧
    buildEngine [(1, 10, 3)] [(1, "A")] =
      Except.error DataIntegrityError.emptyMergedData :=
  ⟨by decide, empty_join_fails_build _ _ (by decide)⟩

/-- Claim C10: calling `get_recommendations` with an empty seed collection is
well defined and returns the empty list: the accumulation loop runs zero
times, the sorted map is empty and nothing is selected. -/
theorem empty_seeds_empty_result (idx : Nat → Option (List (Nat × ℚ)))
    (movies : List (Nat × String)) :
    get_recommendations idx movies [] = [] := rfl

/-- Claim C5: every id in the `top_5_ids` list of `get_top_rated_movies` has a
rating count at least the median of the per-movie rating counts of the merged
dataset, because the ids are drawn from the median-filtered `popular_movies`. -/
theorem top_rated_count_ge_median (ratings : List (Nat × Nat × ℚ))
    (movies : List (Nat × String)) (id : Nat)
    (h : id ∈ top_5_ids (df_merged ratings movies)) :
    medianQ (countsList (df_merged ratings movies)) ≤
      (countOf (df_merged ratings movies) id : ℚ) := by
  rcases List.mem_map.mp h with ⟨p, hp, hpid⟩
  have hp1 : p ∈ (insSort leA (rankedMeans (df_merged ratings movies))).reverse :=
    List.mem_of_mem_take hp
  have hp2 : p ∈ insSort leA (rankedMeans (df_merged ratings movies)) :=
    List.mem_reverse.mp hp1
  have hp3 : p ∈ rankedMeans (df_merged ratings movies) :=
    (perm_insSort leA _).mem_iff.mp hp2
  rw [← hpid]
  exact mem_rankedMeans_count _ p hp3

/-- Witness for C5 at concrete data: movie 2 is returned and its count 1
meets the median 1 of the counts `[1, 1]`. -/
theorem top_rated_count_ge_median_witness :
    2 ∈ top_5_ids (df_merged rC5 mC5) ∧
    medianQ (countsList (df_merged rC5 mC5)) ≤
      (countOf (df_merged rC5 mC5) 2 : ℚ) :=
  ⟨by decide, top_rated_count_ge_median rC5 mC5 2 (by decide)⟩

/-- Claim C8: the aggregation over seeds is additive — the accumulated score
of movie `x` under seeds `[A, B]` is its score under `[A]` plus the total
contribution of `B`'s neighbour list — and therefore monotone whenever that
contribution is nonnegative (in particular when `x` occurs there with
positive similarity). -/
theorem aggregation_additive_monotone (idx : Nat → Option (List (Nat × ℚ)))
    (A B x : Nat) (lB : List (Nat × ℚ)) (hB : idx B = some lB) :
    scoreOf (accumulate idx [A, B]) x =
      scoreOf (accumulate idx [A]) x + sumScores (lB.drop 1) x ∧
    (0 ≤ sumScores (lB.drop 1) x →
      scoreOf (accumulate idx [A]) x ≤ scoreOf (accumulate idx [A, B]) x) := by
  have hAB : accumulate idx [A, B] =
      accumSeed (accumulate idx [A]) (lB.drop 1) := by
    simp [accumulate, accumFrom, hB]
  constructor
  · rw [hAB, scoreOf_accumSeed]
  · intro hpos
    rw [hAB, scoreOf_accumSeed]
    exact le_add_of_nonneg_right hpos

/-- Witness for C8 at a concrete index: movie 9 is a neighbour of seed 2 with
similarity 1/2, and its score under seeds `[1, 2]` dominates its score under
`[1]`. -/
theorem aggregation_additive_monotone_witness :
    idxC8 2 = some lBC8 ∧ 0 ≤ sumScores (lBC8.drop 1) 9 ∧
    scoreOf (accumulate idxC8 [1]) 9 ≤ scoreOf (accumulate idxC8 [1, 2]) 9 :=
  ⟨rfl, by decide,
    (aggregation_additive_monotone idxC8 1 2 9 lBC8 rfl).2 (by decide)⟩

/-- Claim C9: every title either operation returns was resolved through a
`find?` over the movie catalog, so it occurs in the catalog paired with some
movie id; ids without a catalog row are dropped, never an error. -/
theorem titles_roundtrip (idx : Nat → Option (List (Nat × ℚ)))
    (ratings : List (Nat × Nat × ℚ)) (movies : List (Nat × String))
    (seeds : List Nat) :
    (∀ t ∈ get_recommendations idx movies seeds, ∃ id, (id, t) ∈ movies) ∧
    (∀ t ∈ get_top_rated_movies ratings movies, ∃ id, (id, t) ∈ movies) :=
  ⟨fun t ht => mem_resolveTitles movies _ t ht,
   fun t ht => mem_resolveTitles movies _ t ht⟩

/-- Witness for C9 at a concrete index and catalog: the returned title `G`
occurs in the catalog. -/
theorem titles_roundtrip_witness :
    "G" ∈ get_recommendations idxC9 mC9 [1] ∧ ∃ id, (id, "G") ∈ mC9 :=
  ⟨by decide, (titles_roundtrip idxC9 [] mC9 [1]).1 "G" (by decide)⟩

/-- Counterexample to C7 as stated: at a concrete index, movies 7 and 3 tie
with total score 1/2 but the sorted accumulated map of the source keeps the
dict insertion order `7` before `3`, while the spec's mean-descending,
id-ascending order puts `3` first. -/
theorem recommend_sort_tiebreak_cex :
    insSort leD (accumulate idxC7 [1]) = [(7, (1:ℚ)/2), (3, (1:ℚ)/2)] ∧
    insSort leSpecD (accumulate idxC7 [1]) = [(3, (1:ℚ)/2), (7, (1:ℚ)/2)] ∧
    ([((7:Nat), (1:ℚ)/2), (3, (1:ℚ)/2)] : List (Nat × ℚ)) ≠
      [((3:Nat), (1:ℚ)/2), (7, (1:ℚ)/2)] :=
  ⟨by decide, by decide, by decide⟩

/-- Claim C7 as amended: the accumulated map is sorted by total similarity
descending before selection, and ties between equal totals keep the
accumulation map's insertion order (Python's stable `sorted`), not movie_id
ascending order. -/
theorem recommend_sort_amended (idx : Nat → Option (List (Nat × ℚ)))
    (seeds : List Nat) :
    List.Perm (insSort leD (accumulate idx seeds)) (accumulate idx seeds) ∧
    (insSort leD (accumulate idx seeds)).Pairwise (fun p q => q.2 ≤ p.2) ∧
    (∀ c : ℚ,
      (insSort leD (accumulate idx seeds)).filter (fun p => decide (p.2 = c)) =
        (accumulate idx seeds).filter (fun p => decide (p.2 = c))) := by
  refine ⟨perm_insSort leD _, ?_, ?_⟩
  · exact (pairwise_insSort leD leD_total leD_trans _).imp
      (fun {a b} h => by simpa [leD] using h)
  · intro c
    refine filter_insSort leD _ ?_ _
    intro a b ha hb
    simp only [decide_eq_true_eq] at ha hb
    simp [leD, ha, hb]

/-- Counterexample to C6 as stated: movies 1 and 2 tie on mean rating 3, and
the source's `sort_values(ascending=False)` (reverse of an ascending argsort)
returns `[2, 1]`, whereas the spec's mean-descending, id-ascending order
would return `[1, 2]`. -/
theorem top_rated_tiebreak_cex :
    top_5_ids (df_merged rC6 mC6) = [2, 1] ∧
    top_5_ids_spec (df_merged rC6 mC6) = [1, 2] ∧
    ([2, 1] : List Nat) ≠ [1, 2] :=
  ⟨by decide, by decide, by decide⟩

/-- Claim C6 as amended: `get_top_rated_movies` sorts the retained rows by
mean rating descending, but ties between equal means come out in reversed
retained order — movie_id descending, since the retained rows are in
ascending id order — and the first entry still has the maximum mean of the
retained rows (so with pairwise-distinct means the highest-mean movie is
first). -/
theorem top_rated_order_amended (ratings : List (Nat × Nat × ℚ))
    (movies : List (Nat × String)) :
    List.Perm (sortedRanked (df_merged ratings movies))
        (rankedMeans (df_merged ratings movies)) ∧
    (sortedRanked (df_merged ratings movies)).Pairwise (fun p q => q.2 ≤ p.2) ∧
    (∀ c : ℚ,
      (sortedRanked (df_merged ratings movies)).filter
          (fun p => decide (p.2 = c)) =
        ((rankedMeans (df_merged ratings movies)).filter
          (fun p => decide (p.2 = c))).reverse) ∧
    (rankedMeans (df_merged ratings movies)).Pairwise (fun p q => p.1 < q.1) ∧
    (∀ q ∈ rankedMeans (df_merged ratings movies), ∀ p,
      (sortedRanked (df_merged ratings movies)).head? = some p →
        q.2 ≤ p.2) := by
  have hperm : List.Perm (sortedRanked (df_merged ratings movies))
      (rankedMeans (df_merged ratings movies)) :=
    (List.reverse_perm _).trans (perm_insSort leA _)
  have hpair : (sortedRanked (df_merged ratings movies)).Pairwise
      (fun p q => q.2 ≤ p.2) := by
    rw [sortedRanked, List.pairwise_reverse]
    exact (pairwise_insSort leA leA_total leA_trans _).imp
      (fun {a b} h => by simpa [leA] using h)
  refine ⟨hperm, hpair, ?_, rankedMeans_pairwise_lt _, ?_⟩
  · intro c
    rw [sortedRanked, List.filter_reverse]
    congr 1
    refine filter_insSort leA _ ?_ _
    intro a b ha hb
    simp only [decide_eq_true_eq] at ha hb
    simp [leA, ha, hb]
  · intro q hq p hp
    have hq2 : q ∈ sortedRanked (df_merged ratings movies) :=
      hperm.mem_iff.mpr hq
    cases hsr : sortedRanked (df_merged ratings movies) with
    | nil => rw [hsr] at hq2; cases hq2
    | cons r t =>
      rw [hsr] at hp
      have hrp : r = p := by simpa using hp
      rw [hsr] at hq2 hpair
      rcases List.mem_cons.mp hq2 with hqr | hqt
      · rw [hqr, ← hrp]
      · rw [← hrp]
        exact (List.pairwise_cons.mp hpair).1 q hqt

/-- Witness for C6's amended claim at concrete data: the row for movie 1 is
retained, the sorted frame starts with movie 2, and the head's mean dominates
movie 1's mean. -/
theorem top_rated_order_amended_witness :
    ((1 : Nat), (3 : ℚ)) ∈ rankedMeans (df_merged rC6 mC6) ∧
    (sortedRanked (df_merged rC6 mC6)).head? = some (2, 3) ∧
    ((1 : Nat), (3 : ℚ)).2 ≤ ((2 : Nat), (3 : ℚ)).2 :=
  ⟨by decide, by decide,
    (top_rated_order_amended rC6 mC6).2.2.2.2 (1, 3) (by decide) (2, 3)
      (by decide)⟩

end Commend
